import Mathlib

/-!
Verification of the SoftGate frontend's asynchronous invocation tracking
protocol.  The definitions below are a shallow embedding of the client code:
the status normalizer (`normalizeStatus`), the polling session management in
the run handler (`handleRun`, `clearPoll`, the submit-response continuation
`invokeThen`, the interval callback `pollTickBody`, the run-timeout callback
`runTimeoutFire`), and the function store operations used by the save flow
(`upsertFunction`, `removeFunction`, `setSelected`, `handleSaveSuccess`).

Browser timers and promise continuations are modelled explicitly: the state
records which interval/timeout timers are registered; an `Event` fires a
registered timer or settles a pending network call, and `step` runs the
corresponding callback exactly as written in the source.  JavaScript
truthiness of optional response fields is modelled by `truthyJson`,
`truthyStr` and `jsFalsyId`; `JSON.parse` is treated as an oracle (the parse
outcome is an `Option Json` event parameter).
-/

namespace SoftGate

/-- The five run states of the UI: `type RunStatus = "idle" | "queued" |
"processing" | "success" | "fail"`. -/
inductive RunStatus where
  | idle
  | queued
  | processing
  | success
  | fail
deriving DecidableEq, Repr

/-- JSON-compatible runtime values (payloads, results). -/
inductive Json where
  | null
  | bool (b : Bool)
  | num (n : Int)
  | str (s : String)
  | arr (elems : List Json)
  | obj (fields : List (String × Json))

/-- JavaScript truthiness of a JSON value (objects and arrays are always
truthy, `null`/`false`/`0`/empty string are falsy). -/
def Json.truthy : Json → Bool
  | .null => false
  | .bool b => b
  | .num n => n != 0
  | .str s => s != ""
  | .arr _ => true
  | .obj _ => true

/-- Truthiness of an optional JSON field (`undefined` is falsy). -/
def truthyJson : Option Json → Bool
  | none => false
  | some j => j.truthy

/-- Truthiness of an optional string field (`undefined` and `""` are falsy). -/
def truthyStr : Option String → Bool
  | none => false
  | some s => s != ""

/-- Falsiness of the optional numeric `invocation_id` field: the source
checks `!invokeRes.invocation_id`, which is true for `undefined` and `0`. -/
def jsFalsyId : Option Int → Bool
  | none => true
  | some n => n == 0

/-- Character-wise lowercasing, the model of `String.prototype.toLowerCase`. -/
def lowerStr (s : String) : String := ⟨s.data.map Char.toLower⟩

/-- Whether `pat` is an initial segment of `l`. -/
def isPrefixL : List Char → List Char → Bool
  | [], _ => true
  | _ :: _, [] => false
  | a :: as, b :: bs => a == b && isPrefixL as bs

/-- Whether `pat` occurs contiguously inside `l`. -/
def isSubL (pat : List Char) : List Char → Bool
  | [] => pat.isEmpty
  | l@(_ :: tl) => isPrefixL pat l || isSubL pat tl

/-- The model of `String.prototype.includes`. -/
def strIncludes (s pat : String) : Bool := isSubL pat.data s.data

/-- `normalizeStatus` from the run panel: lowercase the raw status (treating
`undefined` as `""`) and classify it by substring match, first match wins;
anything unrecognized counts as `processing`. -/
def normalizeStatus (status : Option String) : RunStatus :=
  let normalized := (status.map lowerStr).getD ""
  if strIncludes normalized "queue" then .queued
  else if strIncludes normalized "process" || strIncludes normalized "run" then .processing
  else if strIncludes normalized "success" || strIncludes normalized "complete"
      || strIncludes normalized "done" then .success
  else if strIncludes normalized "fail" || strIncludes normalized "error" then .fail
  else .processing

/-- Case-insensitive containment as worded by the specification: both the
scrutinee and the pattern are lowercased before the substring test. -/
def containsCI (s pat : String) : Bool := strIncludes (lowerStr s) (lowerStr pat)

/-- Modelled from the spec: the normalization cascade of §4.2, stated with
case-insensitive substring matching on the raw status (with `undefined`
read as the empty string), used as the reference point for `normalizeStatus`. -/
def normalizeSpecCascade (status : Option String) : RunStatus :=
  let raw := status.getD ""
  if containsCI raw "queue" then .queued
  else if containsCI raw "process" || containsCI raw "run" then .processing
  else if containsCI raw "success" || containsCI raw "complete"
      || containsCI raw "done" then .success
  else if containsCI raw "fail" || containsCI raw "error" then .fail
  else .processing

/-- `const MAX_POLL_ATTEMPTS = 60` (about 60 s at a 1 s interval). -/
def MAX_POLL_ATTEMPTS : Nat := 60

/-- `const MAX_STUCK_ATTEMPTS = 30` (about 30 s without a status change). -/
def MAX_STUCK_ATTEMPTS : Nat := 30

/-- The `InvokeResponse` wire shape shared by the submit and poll endpoints
(`invoke` and `getInvocationStatus` in `lib/api.ts`); every field is
optional. -/
structure InvokeResponse where
  duration_ms : Option Int
  error_message : Option String
  function_id : Option Int
  input_event : Option Json
  invocation_id : Option Int
  logged_at : Option String
  result : Option Json
  status : Option String

/-- A registered `setInterval` timer together with the values the interval
callback closed over. -/
structure IntervalCtx where
  id : Nat
  periodMs : Nat
  functionId : Int
  invocationId : Int
  startedAt : Int
deriving DecidableEq, Repr

/-- A registered `setTimeout` timer and the delay it was armed with. -/
structure TimeoutCtx where
  id : Nat
  delayMs : Nat
deriving DecidableEq, Repr

/-- An `invokeFunction` network call whose promise has not settled yet,
together with the values its `.then` continuation closed over. -/
structure PendingInvoke where
  token : Nat
  functionId : Int
  startedAt : Int
deriving DecidableEq, Repr

/-- The active output panel tab. -/
inductive Tab where
  | output
  | history
deriving DecidableEq, Repr

/-- The run-panel state: the React state hooks and refs the run handler
mutates, plus the registered browser timers, the unsettled submit calls and
the log of network calls, which the theorems observe. -/
structure TrackerState where
  runStatus : RunStatus
  isRunning : Bool
  runMessage : Option String
  jsonError : Option String
  activeTab : Tab
  runLogs : List String
  runResult : Option Json
  runDurationMs : Option Int
  pollRef : Option Nat
  runTimeoutRef : Option Nat
  pollAttempts : Nat
  stuckCount : Nat
  lastStatus : Option RunStatus
  activeIntervals : List IntervalCtx
  activeTimeouts : List TimeoutCtx
  pendingInvokes : List PendingInvoke
  nextTimerId : Nat
  nextToken : Nat
  invokeCalls : List (Int × Json)
  getStatusCalls : List (Int × Int)

/-- `clearInterval(tid)`: deregister an interval timer. -/
def clearIntervalId (tid : Nat) (l : List IntervalCtx) : List IntervalCtx :=
  l.filter (fun c => c.id != tid)

/-- `clearTimeout(tid)`: deregister a timeout timer. -/
def clearTimeoutId (tid : Nat) (l : List TimeoutCtx) : List TimeoutCtx :=
  l.filter (fun c => c.id != tid)

/-- `clearPoll`: clear the interval held in `pollRef` (if any), reset the
attempt/stuck/last-status refs, and clear the run timeout held in
`runTimeoutRef` (if any). -/
def clearPoll (s : TrackerState) : TrackerState :=
  let s1 :=
    match s.pollRef with
    | some tid =>
        { s with activeIntervals := clearIntervalId tid s.activeIntervals, pollRef := none }
    | none => s
  let s2 := { s1 with pollAttempts := 0, stuckCount := 0, lastStatus := none }
  match s2.runTimeoutRef with
  | some tid =>
      { s2 with activeTimeouts := clearTimeoutId tid s2.activeTimeouts, runTimeoutRef := none }
  | none => s2

/-- The synchronous body of `handleRun`: precondition checks (selection,
draft id, payload JSON), then reset of the run panel, teardown of any
previous session, arming of the 60000 ms run timeout, and the
`invokeFunction` network call.  `sel` is the id of the selected function
(`none` when nothing is selected) and `parsed` the outcome of
`JSON.parse(payload)` (`none` when it throws). -/
def handleRun (sel : Option Int) (parsed : Option Json) (now : Int)
    (s : TrackerState) : TrackerState :=
  match sel with
  | none => { s with runMessage := some "함수를 선택하세요." }
  | some fid =>
    if fid < 0 then { s with runMessage := some "저장 후 실행할 수 있습니다." }
    else
      match parsed with
      | none => { s with jsonError := some "유효한 JSON 형식이 아닙니다." }
      | some payload =>
        let s1 := { s with jsonError := none, activeTab := Tab.output,
                           runStatus := .queued, runLogs := ["[Queued] Job accepted"],
                           runResult := none, runDurationMs := none }
        let s2 := clearPoll s1
        let s3 := { s2 with pollAttempts := 0, stuckCount := 0, lastStatus := none,
                            isRunning := true, runMessage := some "실행 요청 전송 중..." }
        let s4 :=
          match s3.runTimeoutRef with
          | some tid => { s3 with activeTimeouts := clearTimeoutId tid s3.activeTimeouts }
          | none => s3
        let tid := s4.nextTimerId
        let s5 := { s4 with activeTimeouts := s4.activeTimeouts ++ [TimeoutCtx.mk tid 60000],
                            runTimeoutRef := some tid, nextTimerId := tid + 1 }
        { s5 with invokeCalls := s5.invokeCalls ++ [(fid, payload)],
                  pendingInvokes := s5.pendingInvokes ++ [PendingInvoke.mk s5.nextToken fid now],
                  nextToken := s5.nextToken + 1 }

/-- The run-timeout callback armed by `handleRun`: tear down the session and
force the run into a failed state with the timeout message. -/
def runTimeoutFire (s : TrackerState) : TrackerState :=
  let s1 := clearPoll s
  { s1 with isRunning := false, runStatus := .fail,
            runMessage := some "실행 시간 초과",
            runLogs := s1.runLogs ++ ["[Error] 실행 시간 초과"] }

/-- The `.then` continuation of the `invokeFunction` call: record
status/result/duration from the response, fail immediately on a falsy
`invocation_id`, otherwise log the accepted id and register the 1000 ms
polling interval. -/
def invokeThen (fid : Int) (startedAt : Int) (res : InvokeResponse)
    (s : TrackerState) : TrackerState :=
  let status := normalizeStatus res.status
  let s1 := { s with runStatus := status }
  let s2 := if truthyJson res.result then { s1 with runResult := res.result } else s1
  let s3 := if res.duration_ms.isSome then { s2 with runDurationMs := res.duration_ms } else s2
  if jsFalsyId res.invocation_id then
    { s3 with runLogs := s3.runLogs ++ ["[Error] invocation_id가 응답에 없습니다."],
              runStatus := .fail, isRunning := false,
              runMessage := some "invocation_id 누락" }
  else
    let invId := res.invocation_id.getD 0
    let s4 := { s3 with runLogs := s3.runLogs ++
      ["[Invoke] id=" ++ toString invId ++ " status=" ++ res.status.getD "queued"] }
    let iid := s4.nextTimerId
    { s4 with activeIntervals := s4.activeIntervals ++ [⟨iid, 1000, fid, invId, startedAt⟩],
              pollRef := some iid, nextTimerId := iid + 1 }

/-- The `.catch` continuation of the `invokeFunction` call: tear down and
fail with the propagated message. -/
def invokeCatch (msg : String) (s : TrackerState) : TrackerState :=
  let s1 := clearPoll s
  { s1 with isRunning := false, runStatus := .fail,
            runMessage := some ("실행 요청 실패: " ++ msg),
            runLogs := s1.runLogs ++ ["[Error] " ++ msg] }

/-- Rendering of a `RunStatus` into the template literal of the log line. -/
def statusText : RunStatus → String
  | .idle => "idle"
  | .queued => "queued"
  | .processing => "processing"
  | .success => "success"
  | .fail => "fail"

/-- The poll-response classification applied inside the interval callback:
normalize the raw status, promote `processing` to `success` when the
response carries a truthy `result`, then demote a (still) `processing`
status to `fail` when it carries a truthy `error_message`. -/
def polledStatusOf (res : InvokeResponse) : RunStatus :=
  let s1 := normalizeStatus res.status
  let s2 := if s1 = RunStatus.processing ∧ truthyJson res.result then RunStatus.success else s1
  if s2 = RunStatus.processing ∧ truthyStr res.error_message then RunStatus.fail else s2

/-- The interval callback registered by `invokeThen`: bump the attempt
counter and fail on the attempt cap; otherwise issue the
`getInvocationStatus` call, whose settled `outcome` either runs the `catch`
teardown or the status/stuck/terminal handling. -/
def pollTickBody (ctx : IntervalCtx) (outcome : Except String InvokeResponse) (now : Int)
    (s : TrackerState) : TrackerState :=
  let s1 := { s with pollAttempts := s.pollAttempts + 1 }
  if s1.pollAttempts ≥ MAX_POLL_ATTEMPTS then
    let s2 := clearPoll s1
    { s2 with isRunning := false, runStatus := .fail,
              runMessage := some "폴링 타임아웃",
              runLogs := s2.runLogs ++ ["[Error] 폴링 타임아웃"] }
  else
    let s2 := { s1 with getStatusCalls := s1.getStatusCalls ++ [(ctx.functionId, ctx.invocationId)] }
    match outcome with
    | .error msg =>
      let s3 := clearPoll s2
      { s3 with isRunning := false, runStatus := .fail,
                runMessage := some ("폴링 실패: " ++ msg),
                runLogs := s3.runLogs ++ ["[Error] " ++ msg] }
    | .ok res =>
      let polled := polledStatusOf res
      let s3 := { s2 with runStatus := polled }
      let s4 := if res.duration_ms.isSome then { s3 with runDurationMs := res.duration_ms } else s3
      let s5 := if truthyJson res.result then { s4 with runResult := res.result } else s4
      let s6 :=
        if truthyStr res.logged_at then
          { s5 with runLogs := s5.runLogs ++
            ["[" ++ statusText polled ++ "] " ++ res.logged_at.getD ""] }
        else s5
      let s7 :=
        if some polled = s6.lastStatus then { s6 with stuckCount := s6.stuckCount + 1 }
        else { s6 with stuckCount := 0 }
      let s8 := { s7 with lastStatus := some polled }
      if (polled = RunStatus.processing ∨ polled = RunStatus.queued)
          ∧ s8.stuckCount ≥ MAX_STUCK_ATTEMPTS then
        let s9 := clearPoll s8
        { s9 with isRunning := false, runStatus := .fail,
                  runMessage := some "상태 변화 없이 대기 시간 초과",
                  runLogs := s9.runLogs ++ ["[Error] 상태 변화 없음으로 중단"] }
      else if polled = RunStatus.success ∨ polled = RunStatus.fail then
        let s9 := clearPoll s8
        let s10 := { s9 with isRunning := false,
                             runMessage := some (if polled = RunStatus.success then "실행 완료"
                                                 else res.error_message.getD "실행 실패") }
        if res.duration_ms = none then { s10 with runDurationMs := some (now - ctx.startedAt) }
        else s10
      else s8

/-- The scheduler-visible events: a click on Run, the settling of a pending
submit call, the firing of a registered interval tick (carrying the settled
outcome of its `getInvocationStatus` call), and the firing of a registered
run timeout. -/
inductive Event where
  | submit (sel : Option Int) (parsed : Option Json) (now : Int)
  | invokeResolved (token : Nat) (res : InvokeResponse)
  | invokeRejected (token : Nat) (msg : String)
  | pollTick (tid : Nat) (outcome : Except String InvokeResponse) (now : Int)
  | runTimeout (tid : Nat)

/-- One scheduler step: an event only has an effect while its timer is still
registered (a cleared timer never fires) or its network call is still
pending (a promise settles once). -/
def step (s : TrackerState) (e : Event) : TrackerState :=
  match e with
  | .submit sel parsed now => handleRun sel parsed now s
  | .invokeResolved token res =>
    match s.pendingInvokes.find? (fun p => p.token == token) with
    | some p =>
        invokeThen p.functionId p.startedAt res
          { s with pendingInvokes := s.pendingInvokes.filter (fun q => q.token != token) }
    | none => s
  | .invokeRejected token msg =>
    match s.pendingInvokes.find? (fun p => p.token == token) with
    | some _ =>
        invokeCatch msg
          { s with pendingInvokes := s.pendingInvokes.filter (fun q => q.token != token) }
    | none => s
  | .pollTick tid outcome now =>
    match s.activeIntervals.find? (fun c => c.id == tid) with
    | some ctx => pollTickBody ctx outcome now s
    | none => s
  | .runTimeout tid =>
    if s.activeTimeouts.any (fun c => c.id == tid) then
      runTimeoutFire { s with activeTimeouts := clearTimeoutId tid s.activeTimeouts }
    else s

/-- Folding a list of events through `step`. -/
def runEvents (s : TrackerState) (es : List Event) : TrackerState := es.foldl step s

/-- The initial run-panel state of the page component. -/
def initialState : TrackerState :=
  { runStatus := .idle, isRunning := false, runMessage := none, jsonError := none,
    activeTab := .output, runLogs := [], runResult := none, runDurationMs := none,
    pollRef := none, runTimeoutRef := none, pollAttempts := 0, stuckCount := 0,
    lastStatus := none, activeIntervals := [], activeTimeouts := [],
    pendingInvokes := [], nextTimerId := 1, nextToken := 0,
    invokeCalls := [], getStatusCalls := [] }

/-- The three authoring languages. -/
inductive Language where
  | python
  | node
  | go
deriving DecidableEq, Repr

/-- A `SoftGateFunction` entry of the function store; a negative `id` marks
a local-only draft, server ids are positive. -/
structure SoftGateFunction where
  id : Int
  name : String
  language : Language
  code : String
  description : Option String
deriving DecidableEq, Repr

/-- The zustand function store: the displayed function list and the current
selection. -/
structure FunctionStore where
  functions : List SoftGateFunction
  selectedId : Option Int
deriving DecidableEq, Repr

/-- `upsertFunction` from the store: merge into an existing entry with the
same id (keeping the current selection when one exists), otherwise append
the entry at the end of the list and select it.  The source's spread
`{ ...item, ...fn }` yields `fn`, since `fn` carries every field. -/
def upsertFunction (fn : SoftGateFunction) (st : FunctionStore) : FunctionStore :=
  match st.functions.find? (fun item => item.id == fn.id) with
  | some _ =>
      { functions := st.functions.map (fun item => if item.id == fn.id then fn else item),
        selectedId := some (st.selectedId.getD fn.id) }
  | none =>
      { functions := st.functions ++ [fn], selectedId := some fn.id }

/-- `removeFunction` from the store: filter the id out and, when it was the
selected one, fall back to the first remaining entry (or no selection). -/
def removeFunction (id : Int) (st : FunctionStore) : FunctionStore :=
  let filtered := st.functions.filter (fun fn => fn.id != id)
  { functions := filtered,
    selectedId := if st.selectedId == some id then filtered.head?.map (fun fn => fn.id)
                  else st.selectedId }

/-- `setSelected` from the store. -/
def setSelected (id : Int) (st : FunctionStore) : FunctionStore :=
  if st.selectedId == some id then st else { st with selectedId := some id }

/-- The `FunctionDetail` response of `createFunction`. -/
structure FunctionDetail where
  id : Int
  name : String
  runtime : String
  description : Option String
  code : Option String
deriving DecidableEq, Repr

/-- `mapRuntimeToLanguage` from the page component: substring match on the
lowercased runtime tag, defaulting to `node`. -/
def mapRuntimeToLanguage (runtime : Option String) : Language :=
  let normalized := (runtime.map lowerStr).getD ""
  if strIncludes normalized "py" then .python
  else if strIncludes normalized "go" then .go
  else .node

/-- The success path of `handleSave` for a draft (`draftId < 0`): build the
saved entry from the `createFunction` response (falling back to the draft's
code when the response has none), remove the draft, upsert the saved entry
and select its id. -/
def handleSaveSuccess (st : FunctionStore) (draftId : Int) (draftCode : String)
    (res : FunctionDetail) : FunctionStore :=
  let lang := mapRuntimeToLanguage (some res.runtime)
  let savedFn : SoftGateFunction :=
    { id := res.id, name := res.name, language := lang,
      code := res.code.getD draftCode, description := res.description }
  setSelected savedFn.id (upsertFunction savedFn (removeFunction draftId st))

/-! Helper lemmas about `clearPoll`. -/

/-- `clearPoll` written as a single record update. -/
lemma clearPoll_eq (s : TrackerState) :
    clearPoll s =
      { s with pollAttempts := 0, stuckCount := 0, lastStatus := none,
               pollRef := none, runTimeoutRef := none,
               activeIntervals :=
                 match s.pollRef with
                 | some tid => clearIntervalId tid s.activeIntervals
                 | none => s.activeIntervals,
               activeTimeouts :=
                 match s.runTimeoutRef with
                 | some tid => clearTimeoutId tid s.activeTimeouts
                 | none => s.activeTimeouts } := by
  cases h1 : s.pollRef <;> cases h2 : s.runTimeoutRef <;> simp [clearPoll, h1, h2]

/-- When every registered interval is the one held in `pollRef` (the
single-session shape), `clearPoll` leaves no registered interval. -/
lemma clearPoll_clears_intervals (s : TrackerState)
    (h : ∀ c ∈ s.activeIntervals, s.pollRef = some c.id) :
    (clearPoll s).activeIntervals = [] := by
  rw [clearPoll_eq]
  cases hp : s.pollRef with
  | none =>
    cases hl : s.activeIntervals with
    | nil => simp
    | cons c tl => exact absurd (h c (by simp [hl])) (by simp [hp])
  | some tid =>
    simp only [clearIntervalId, List.filter_eq_nil_iff]
    intro c hc
    have := h c hc
    rw [hp] at this
    simp [Option.some.injEq] at this
    simp [this]

/-- When the registered timeouts are exactly the one held in
`runTimeoutRef`, `clearPoll` leaves no registered timeout. -/
lemma clearPoll_clears_timeouts (s : TrackerState) (tc : TimeoutCtx)
    (h1 : s.runTimeoutRef = some tc.id) (h2 : s.activeTimeouts = [tc]) :
    (clearPoll s).activeTimeouts = [] := by
  rw [clearPoll_eq]
  simp [h1, h2, clearTimeoutId]

/-- Claim C8: `normalizeStatus` is pure and total: for every raw status
string (including `undefined`) it returns exactly one of the four canonical
states (never `idle`, never an exception), and it agrees with the
case-insensitive substring cascade of the specification, evaluated in order
with the first match winning and `Processing` as the fallback. -/
theorem normalize_total_cascade (status : Option String) :
    normalizeStatus status = normalizeSpecCascade status ∧
    normalizeStatus status ≠ RunStatus.idle := by
  have hq : lowerStr "queue" = "queue" := by decide
  have hp : lowerStr "process" = "process" := by decide
  have hr : lowerStr "run" = "run" := by decide
  have hs : lowerStr "success" = "success" := by decide
  have hc : lowerStr "complete" = "complete" := by decide
  have hd : lowerStr "done" = "done" := by decide
  have hf : lowerStr "fail" = "fail" := by decide
  have he : lowerStr "error" = "error" := by decide
  constructor
  · cases status with
    | none => decide
    | some s =>
      simp only [normalizeStatus, normalizeSpecCascade, containsCI,
        Option.map_some', Option.getD_some, hq, hp, hr, hs, hc, hd, hf, he]
  · cases status with
    | none => decide
    | some s =>
      simp only [normalizeStatus, Option.map_some', Option.getD_some]
      split
      · simp
      · split
        · simp
        · split
          · simp
          · split <;> simp

/-- A submit response accepting the invocation with id 7 in status
"queued". -/
def okSubmitRes : InvokeResponse :=
  ⟨none, none, none, none, some 7, none, none, some "queued"⟩

/-- A submit response that omits `invocation_id`. -/
def missingIdRes : InvokeResponse :=
  ⟨none, none, none, none, none, none, none, some "queued"⟩

/-- A submit response carrying `invocation_id = 0`. -/
def zeroIdRes : InvokeResponse :=
  ⟨none, none, none, none, some 0, none, none, some "queued"⟩

/-- A bare "processing" poll response (no result, no error). -/
def processingRes : InvokeResponse :=
  ⟨none, none, none, none, none, none, none, some "processing"⟩

/-- A "processing" poll response carrying both a (truthy) result object and
a non-empty error message. -/
def bothFieldsRes : InvokeResponse :=
  ⟨none, some "boom", none, none, none, none, some (Json.obj []), some "processing"⟩

/-- Claim C2 (counterexample): a poll response whose raw status normalizes
to `Processing` and which carries a non-empty error message is NOT reported
as `Fail` when it also carries a truthy result — the result promotion runs
first, so the tracker classifies it `Success`; ticking on this response from
a live session likewise ends the run in `success`, not `fail`. -/
theorem processing_with_result_and_error_cex :
    normalizeStatus bothFieldsRes.status = RunStatus.processing ∧
    truthyStr bothFieldsRes.error_message = true ∧
    polledStatusOf bothFieldsRes ≠ RunStatus.fail ∧
    polledStatusOf bothFieldsRes = RunStatus.success ∧
    (runEvents initialState
      [.submit (some 5) (some Json.null) 0, .invokeResolved 0 okSubmitRes,
       .pollTick 2 (.ok bothFieldsRes) 0]).runStatus = RunStatus.success := by
  refine ⟨by decide, by decide, by decide, by decide, ?_⟩
  rfl

/-- Claim C2 (amended): for a poll response whose raw status normalizes to
`Processing`, a truthy `result` makes the tracker report `Success`; a
non-empty `error_message` makes it report `Fail` only when the response does
not also carry a truthy `result` (the result promotion takes precedence). -/
theorem poll_promotion_demotion (res : InvokeResponse)
    (h : normalizeStatus res.status = RunStatus.processing) :
    (truthyJson res.result = true → polledStatusOf res = RunStatus.success) ∧
    (truthyStr res.error_message = true → truthyJson res.result = false →
      polledStatusOf res = RunStatus.fail) := by
  constructor
  · intro h1
    simp [polledStatusOf, h, h1]
  · intro h1 h2
    simp [polledStatusOf, h, h1, h2]

/-- Witness for `poll_promotion_demotion` at a concrete response with a
truthy result and stale "processing" status. -/
theorem poll_promotion_demotion_witness :
    polledStatusOf ⟨none, none, none, none, none, none, some (Json.obj []),
      some "processing"⟩ = RunStatus.success :=
  (poll_promotion_demotion _ (by decide)).1 (by decide)

/-- Claim C10: a submit response with `invocation_id = 0` is handled by the
`.then` continuation exactly like a response with no invocation id at all
(`!invokeRes.invocation_id` is truthy for `0`): the run ends in `fail` with
the missing-invocation-id message, no polling interval is registered and no
`getInvocationStatus` call is ever issued for invocation 0. -/
theorem invocation_id_zero_treated_missing (fid startedAt : Int)
    (res : InvokeResponse) (s : TrackerState) (h : res.invocation_id = some 0) :
    invokeThen fid startedAt res s =
      invokeThen fid startedAt { res with invocation_id := none } s ∧
    (invokeThen fid startedAt res s).runStatus = RunStatus.fail ∧
    (invokeThen fid startedAt res s).runMessage = some "invocation_id 누락" ∧
    (invokeThen fid startedAt res s).isRunning = false ∧
    (invokeThen fid startedAt res s).activeIntervals = s.activeIntervals ∧
    (invokeThen fid startedAt res s).pollRef = s.pollRef ∧
    (invokeThen fid startedAt res s).getStatusCalls = s.getStatusCalls := by
  by_cases hd : res.duration_ms.isSome <;> by_cases hr : truthyJson res.result = true <;>
    refine ⟨?_, ?_, ?_, ?_, ?_, ?_, ?_⟩ <;> simp [invokeThen, jsFalsyId, h, hd, hr]

/-- Witness for `invocation_id_zero_treated_missing`: the zero-id response
applied to the initial state. -/
theorem invocation_id_zero_treated_missing_witness :
    (invokeThen 5 0 zeroIdRes initialState).runStatus = RunStatus.fail ∧
    (invokeThen 5 0 zeroIdRes initialState).runMessage = some "invocation_id 누락" ∧
    (invokeThen 5 0 zeroIdRes initialState).activeIntervals = [] := by
  have h := invocation_id_zero_treated_missing 5 0 zeroIdRes initialState (by decide)
  exact ⟨h.2.1, h.2.2.1, h.2.2.2.2.1⟩

/-- Claim C7: a submit attempt that fails a precondition (no selection,
negative draft id, or unparsable payload) performs no network call and
leaves the whole tracker state unchanged except for the message reporting
that specific precondition. -/
theorem submit_precondition_failures (s : TrackerState) (parsed : Option Json)
    (now : Int) :
    (step s (.submit none parsed now) =
      { s with runMessage := some "함수를 선택하세요." }) ∧
    (∀ fid : Int, fid < 0 →
      step s (.submit (some fid) parsed now) =
        { s with runMessage := some "저장 후 실행할 수 있습니다." }) ∧
    (∀ fid : Int, 0 ≤ fid →
      step s (.submit (some fid) none now) =
        { s with jsonError := some "유효한 JSON 형식이 아닙니다." }) ∧
    (step s (.submit none parsed now)).invokeCalls = s.invokeCalls ∧
    (step s (.submit none parsed now)).getStatusCalls = s.getStatusCalls := by
  refine ⟨rfl, ?_, ?_, rfl, rfl⟩
  · intro fid hfid
    simp [step, handleRun, hfid]
  · intro fid hfid
    simp [step, handleRun, show ¬ fid < 0 by omega]

/-- Witness for `submit_precondition_failures`: submitting a draft (id -1)
from the initial state only sets the draft message. -/
theorem submit_precondition_failures_witness :
    step initialState (.submit (some (-1)) none 0) =
      { initialState with runMessage := some "저장 후 실행할 수 있습니다." } :=
  (submit_precondition_failures initialState none 0).2.1 (-1) (by decide)

/-- Finding an interval in a single-session list. -/
lemma find_interval_singleton (ctx : IntervalCtx) (s : TrackerState)
    (hI : s.activeIntervals = [ctx]) :
    s.activeIntervals.find? (fun c => c.id == ctx.id) = some ctx := by
  rw [hI]; simp [List.find?]

/-- Claim C5: when the `getInvocationStatus` call of a poll tick fails, the
run terminates as `fail` on that very tick with the underlying message
propagated (`폴링 실패: <msg>` and an error log line), the interval and the
run timeout are cleared, and no later poll tick can have any effect. -/
theorem poll_error_terminates (s : TrackerState) (ctx : IntervalCtx)
    (msg : String) (now : Int)
    (hI : s.activeIntervals = [ctx])
    (hP : s.pollRef = some ctx.id)
    (hA : s.pollAttempts + 1 < MAX_POLL_ATTEMPTS) :
    (step s (.pollTick ctx.id (.error msg) now)).runStatus = RunStatus.fail ∧
    (step s (.pollTick ctx.id (.error msg) now)).runMessage =
      some ("폴링 실패: " ++ msg) ∧
    (step s (.pollTick ctx.id (.error msg) now)).runLogs =
      s.runLogs ++ ["[Error] " ++ msg] ∧
    (step s (.pollTick ctx.id (.error msg) now)).getStatusCalls =
      s.getStatusCalls ++ [(ctx.functionId, ctx.invocationId)] ∧
    (step s (.pollTick ctx.id (.error msg) now)).pollRef = none ∧
    (step s (.pollTick ctx.id (.error msg) now)).activeIntervals = [] ∧
    (step s (.pollTick ctx.id (.error msg) now)).runTimeoutRef = none ∧
    (step s (.pollTick ctx.id (.error msg) now)).isRunning = false ∧
    (∀ (tid' : Nat) (outcome' : Except String InvokeResponse) (now' : Int),
      step (step s (.pollTick ctx.id (.error msg) now)) (.pollTick tid' outcome' now') =
        step s (.pollTick ctx.id (.error msg) now)) := by
  have hfind := find_interval_singleton ctx s hI
  have hcap : ¬ (s.pollAttempts + 1 ≥ MAX_POLL_ATTEMPTS) := by omega
  have hbody : step s (.pollTick ctx.id (.error msg) now) =
      pollTickBody ctx (.error msg) now s := by
    simp [step, hfind]
  refine ⟨?_, ?_, ?_, ?_, ?_, ?_, ?_, ?_, ?_⟩
  all_goals rw [hbody]
  all_goals simp only [pollTickBody, clearPoll_eq]
  all_goals simp [hcap, hP, hI, clearIntervalId]
  intro tid' outcome' now'
  have hempty : (pollTickBody ctx (.error msg) now s).activeIntervals = [] := by
    simp only [pollTickBody, clearPoll_eq]
    simp [hcap, hP, hI, clearIntervalId]
  simp [step, hempty]

/-- Witness for `poll_error_terminates`: a network drop on the first poll
tick of a freshly submitted run. -/
theorem poll_error_terminates_witness :
    (step (runEvents initialState
        [.submit (some 5) (some Json.null) 0, .invokeResolved 0 okSubmitRes])
      (.pollTick 2 (.error "boom") 0)).runStatus = RunStatus.fail ∧
    (step (runEvents initialState
        [.submit (some 5) (some Json.null) 0, .invokeResolved 0 okSubmitRes])
      (.pollTick 2 (.error "boom") 0)).activeIntervals = [] := by
  have h := poll_error_terminates
    (runEvents initialState
      [.submit (some 5) (some Json.null) 0, .invokeResolved 0 okSubmitRes])
    (IntervalCtx.mk 2 1000 5 7 0) "boom" 0 (by decide) (by decide) (by decide)
  exact ⟨h.1, h.2.2.2.2.2.1⟩

/-- Claim C6: every successful submit arms a run timeout of 60000 ms (60
time-units); when a registered run timeout fires, the run is force-terminated
as `fail` with the timeout message, the poll session is torn down (interval
and refs cleared), no `getInvocationStatus` call is made by the firing, and
no later poll tick can have any effect. -/
theorem run_timeout_armed_and_fires :
    (∀ (s : TrackerState) (fid : Int) (p : Json) (now : Int), 0 ≤ fid →
      (step s (.submit (some fid) (some p) now)).runTimeoutRef = some s.nextTimerId ∧
      TimeoutCtx.mk s.nextTimerId 60000 ∈
        (step s (.submit (some fid) (some p) now)).activeTimeouts) ∧
    (∀ (s : TrackerState) (tc : TimeoutCtx), tc ∈ s.activeTimeouts →
      (∀ c ∈ s.activeIntervals, s.pollRef = some c.id) →
      (step s (.runTimeout tc.id)).runStatus = RunStatus.fail ∧
      (step s (.runTimeout tc.id)).runMessage = some "실행 시간 초과" ∧
      (step s (.runTimeout tc.id)).runLogs = s.runLogs ++ ["[Error] 실행 시간 초과"] ∧
      (step s (.runTimeout tc.id)).pollRef = none ∧
      (step s (.runTimeout tc.id)).activeIntervals = [] ∧
      (step s (.runTimeout tc.id)).isRunning = false ∧
      (step s (.runTimeout tc.id)).getStatusCalls = s.getStatusCalls ∧
      (∀ (tid' : Nat) (outcome' : Except String InvokeResponse) (now' : Int),
        step (step s (.runTimeout tc.id)) (.pollTick tid' outcome' now') =
          step s (.runTimeout tc.id))) := by
  constructor
  · intro s fid p now hfid
    constructor
    · simp [step, handleRun, show ¬ fid < 0 by omega, clearPoll_eq]
    · simp [step, handleRun, show ¬ fid < 0 by omega, clearPoll_eq]
  · intro s tc htc hint
    have hany : (s.activeTimeouts.any (fun c => c.id == tc.id)) = true := by
      simp only [List.any_eq_true]
      exact ⟨tc, htc, by simp⟩
    have hstep : step s (.runTimeout tc.id) =
        runTimeoutFire { s with activeTimeouts := clearTimeoutId tc.id s.activeTimeouts } := by
      simp [step, hany]
    have hclear : (clearPoll
        { s with activeTimeouts := clearTimeoutId tc.id s.activeTimeouts }).activeIntervals
        = [] := by
      refine clearPoll_clears_intervals _ ?_
      simpa using hint
    refine ⟨?_, ?_, ?_, ?_, ?_, ?_, ?_, ?_⟩
    all_goals rw [hstep]
    · simp [runTimeoutFire]
    · simp [runTimeoutFire]
    · simp [runTimeoutFire, clearPoll_eq]
    · simp [runTimeoutFire, clearPoll_eq]
    · simp only [runTimeoutFire]
      simpa using hclear
    · simp [runTimeoutFire]
    · simp [runTimeoutFire, clearPoll_eq]
    · intro tid' outcome' now'
      have hempty : (runTimeoutFire
          { s with activeTimeouts := clearTimeoutId tc.id s.activeTimeouts }).activeIntervals
          = [] := by
        simp only [runTimeoutFire]
        simpa using hclear
      simp [step, hempty]

/-- Witness for `run_timeout_armed_and_fires`: letting the timeout armed by a
fresh submit fire while the submit response is still pending. -/
theorem run_timeout_armed_and_fires_witness :
    (step (runEvents initialState [.submit (some 5) (some Json.null) 0])
      (.runTimeout 1)).runStatus = RunStatus.fail ∧
    (step (runEvents initialState [.submit (some 5) (some Json.null) 0])
      (.runTimeout 1)).runMessage = some "실행 시간 초과" := by
  have h := run_timeout_armed_and_fires.2
    (runEvents initialState [.submit (some 5) (some Json.null) 0])
    (TimeoutCtx.mk 1 60000) (by decide) (by decide)
  exact ⟨h.1, h.2.1⟩

/-- Claim C4 (code evaluated at the failing input): after a submit whose
response lacks `invocation_id`, the handler does set `fail` with the
missing-invocation-id message and never issues a poll call — but it does not
clear the 60 s run timeout armed by the submit, so when that timeout fires
the failure message is overwritten by the timeout message (and a spurious
timeout log line is appended); the run's final observable message therefore
does not indicate the missing invocation id. -/
theorem missing_invocation_id_timer_not_cleared :
    (runEvents initialState
      [.submit (some 5) (some Json.null) 0, .invokeResolved 0 missingIdRes]).runStatus
        = RunStatus.fail ∧
    (runEvents initialState
      [.submit (some 5) (some Json.null) 0, .invokeResolved 0 missingIdRes]).runMessage
        = some "invocation_id 누락" ∧
    (runEvents initialState
      [.submit (some 5) (some Json.null) 0, .invokeResolved 0 missingIdRes]).runTimeoutRef
        = some 1 ∧
    (runEvents initialState
      [.submit (some 5) (some Json.null) 0, .invokeResolved 0 missingIdRes]).activeTimeouts
        = [TimeoutCtx.mk 1 60000] ∧
    (runEvents initialState
      [.submit (some 5) (some Json.null) 0, .invokeResolved 0 missingIdRes,
       .runTimeout 1]).runMessage = some "실행 시간 초과" ∧
    (runEvents initialState
      [.submit (some 5) (some Json.null) 0, .invokeResolved 0 missingIdRes,
       .runTimeout 1]).runMessage ≠ some "invocation_id 누락" ∧
    (runEvents initialState
      [.submit (some 5) (some Json.null) 0, .invokeResolved 0 missingIdRes,
       .runTimeout 1]).runStatus = RunStatus.fail ∧
    (runEvents initialState
      [.submit (some 5) (some Json.null) 0, .invokeResolved 0 missingIdRes,
       .runTimeout 1]).getStatusCalls = [] ∧
    (runEvents initialState
      [.submit (some 5) (some Json.null) 0, .invokeResolved 0 missingIdRes,
       .runTimeout 1]).activeIntervals = [] := by
  refine ⟨rfl, rfl, rfl, rfl, rfl, by decide, rfl, rfl, rfl⟩

/-- A local draft entry (id -1). -/
def draftFn0 : SoftGateFunction :=
  ⟨-1, "draft", Language.python, "print(1)", none⟩

/-- A server-backed entry (id 2) displayed after the draft. -/
def otherFn0 : SoftGateFunction :=
  ⟨2, "other", Language.node, "x", none⟩

/-- A store whose draft is displayed first, before a server entry. -/
def storeCex : FunctionStore :=
  ⟨[draftFn0, otherFn0], some (-1)⟩

/-- A `createFunction` response assigning server id 7. -/
def resDetail0 : FunctionDetail :=
  ⟨7, "draft", "python", none, some "print(1)"⟩

/-- Claim C9 (counterexample): saving a draft that is not the last displayed
entry does not put the server-returned entry at the draft's displayed
position — `removeFunction` drops the draft from its slot and
`upsertFunction` appends the saved entry at the end, so the id sequence
[-1, 2] becomes [2, 7] instead of the positional replacement [7, 2]. -/
theorem draft_save_position_cex :
    storeCex.functions.map (fun fn => fn.id) = [-1, 2] ∧
    (handleSaveSuccess storeCex (-1) "print(1)" resDetail0).functions.map
      (fun fn => fn.id) = [2, 7] ∧
    (handleSaveSuccess storeCex (-1) "print(1)" resDetail0).functions.map
      (fun fn => fn.id) ≠ [7, 2] ∧
    (handleSaveSuccess storeCex (-1) "print(1)" resDetail0).selectedId = some 7 := by
  refine ⟨by decide, by decide, by decide, by decide⟩

/-- Claim C9 (amended): on a successful save of a draft (negative id) whose
server-assigned id is fresh and positive, the draft entry is removed and the
server-returned entry is appended at the end of the list (so it keeps the
draft's displayed position only when the draft was last); no duplicate
results: the draft id is gone and the server id occurs exactly once; and the
selection follows the new server id. -/
theorem draft_save_replaces_at_end (st : FunctionStore) (draftId : Int)
    (draftCode : String) (res : FunctionDetail)
    (hdraft : draftId < 0) (hpos : 0 < res.id)
    (hfresh : ∀ fn ∈ st.functions, fn.id ≠ res.id) :
    (handleSaveSuccess st draftId draftCode res).functions =
      st.functions.filter (fun fn => fn.id != draftId) ++
        [SoftGateFunction.mk res.id res.name (mapRuntimeToLanguage (some res.runtime))
          (res.code.getD draftCode) res.description] ∧
    (handleSaveSuccess st draftId draftCode res).selectedId = some res.id ∧
    (∀ fn ∈ (handleSaveSuccess st draftId draftCode res).functions, fn.id ≠ draftId) ∧
    ((handleSaveSuccess st draftId draftCode res).functions.countP
      (fun fn => fn.id == res.id)) = 1 := by
  have hfind : (st.functions.filter (fun fn => fn.id != draftId)).find?
      (fun item => item.id == res.id) = none := by
    rw [List.find?_eq_none]
    intro x hx
    have hx' : x ∈ st.functions := List.mem_of_mem_filter hx
    simpa using hfresh x hx'
  have hmain : handleSaveSuccess st draftId draftCode res =
      ⟨st.functions.filter (fun fn => fn.id != draftId) ++
        [SoftGateFunction.mk res.id res.name (mapRuntimeToLanguage (some res.runtime))
          (res.code.getD draftCode) res.description], some res.id⟩ := by
    simp [handleSaveSuccess, removeFunction, upsertFunction, hfind, setSelected]
  refine ⟨by rw [hmain], by rw [hmain], ?_, ?_⟩
  · rw [hmain]
    intro fn hfn
    rcases List.mem_append.1 hfn with hL | hR
    · have := List.of_mem_filter hL
      simpa using this
    · have : fn = SoftGateFunction.mk res.id res.name
          (mapRuntimeToLanguage (some res.runtime)) (res.code.getD draftCode)
          res.description := by simpa using hR
      rw [this]
      simp only []
      omega
  · rw [hmain, List.countP_append]
    have h0 : (st.functions.filter (fun fn => fn.id != draftId)).countP
        (fun fn => fn.id == res.id) = 0 := by
      rw [List.countP_eq_zero]
      intro x hx
      have hx' : x ∈ st.functions := List.mem_of_mem_filter hx
      simpa using hfresh x hx'
    rw [h0]
    simp

/-- Witness for `draft_save_replaces_at_end`: the selection follows the new
server id on the concrete store. -/
theorem draft_save_replaces_at_end_witness :
    (handleSaveSuccess storeCex (-1) "print(1)" resDetail0).selectedId = some 7 :=
  (draft_save_replaces_at_end storeCex (-1) "print(1)" resDetail0 (by decide)
    (by decide) (by decide)).2.1

/-- Effect of one successful poll tick whose classified status is
non-terminal and whose stuck counter stays below the bound: the session
stays registered and the counters advance as the source writes them. -/
lemma tick_ok_nonterminal (s : TrackerState) (ctx : IntervalCtx)
    (r : InvokeResponse) (c : RunStatus) (tnow : Int)
    (hI : s.activeIntervals = [ctx])
    (hA : s.pollAttempts + 1 < MAX_POLL_ATTEMPTS)
    (hc : polledStatusOf r = c)
    (hct : c = RunStatus.processing ∨ c = RunStatus.queued)
    (hstuck : (if some c = s.lastStatus then s.stuckCount + 1 else 0)
      < MAX_STUCK_ATTEMPTS) :
    (step s (.pollTick ctx.id (.ok r) tnow)).activeIntervals = [ctx] ∧
    (step s (.pollTick ctx.id (.ok r) tnow)).pollRef = s.pollRef ∧
    (step s (.pollTick ctx.id (.ok r) tnow)).pollAttempts = s.pollAttempts + 1 ∧
    (step s (.pollTick ctx.id (.ok r) tnow)).stuckCount =
      (if some c = s.lastStatus then s.stuckCount + 1 else 0) ∧
    (step s (.pollTick ctx.id (.ok r) tnow)).lastStatus = some c ∧
    (step s (.pollTick ctx.id (.ok r) tnow)).runStatus = c ∧
    (step s (.pollTick ctx.id (.ok r) tnow)).isRunning = s.isRunning ∧
    (step s (.pollTick ctx.id (.ok r) tnow)).runTimeoutRef = s.runTimeoutRef ∧
    (step s (.pollTick ctx.id (.ok r) tnow)).activeTimeouts = s.activeTimeouts ∧
    (step s (.pollTick ctx.id (.ok r) tnow)).runMessage = s.runMessage := by
  have hfind := find_interval_singleton ctx s hI
  have hcap : ¬ (s.pollAttempts + 1 ≥ MAX_POLL_ATTEMPTS) := by omega
  have hterm : ¬ (c = RunStatus.success ∨ c = RunStatus.fail) := by
    rcases hct with rfl | rfl <;> simp
  have hnt : c = RunStatus.processing ∨ c = RunStatus.queued := hct
  by_cases hlast : some c = s.lastStatus
  · have hstuck' : ¬ (s.stuckCount + 1 ≥ MAX_STUCK_ATTEMPTS) := by
      rw [if_pos hlast] at hstuck; omega
    by_cases hd : r.duration_ms.isSome <;> by_cases hrr : truthyJson r.result = true <;>
      by_cases hl : truthyStr r.logged_at = true <;>
      refine ⟨?_, ?_, ?_, ?_, ?_, ?_, ?_, ?_, ?_, ?_⟩ <;>
      simp [step, hfind, pollTickBody, hd, hrr, hl, hc, hlast, hstuck', hterm, hnt, hcap, hI]
  · have hstuck' : ¬ ((0 : Nat) ≥ MAX_STUCK_ATTEMPTS) := by
      simp [MAX_STUCK_ATTEMPTS]
    by_cases hd : r.duration_ms.isSome <;> by_cases hrr : truthyJson r.result = true <;>
      by_cases hl : truthyStr r.logged_at = true <;>
      refine ⟨?_, ?_, ?_, ?_, ?_, ?_, ?_, ?_, ?_, ?_⟩ <;>
      simp [step, hfind, pollTickBody, hd, hrr, hl, hc, hlast, hstuck', hterm, hnt, hcap, hI]

/-- `runEvents` distributes over list append. -/
lemma runEvents_append (s : TrackerState) (es1 es2 : List Event) :
    runEvents s (es1 ++ es2) = runEvents (runEvents s es1) es2 := by
  simp [runEvents, List.foldl_append]

/-- Iterating `ticks` whose classified status equals the already-recorded
`lastStatus`, staying strictly below both the attempt cap and the stuck
bound: counters advance by the number of ticks and the session stays up. -/
lemma ticks_same_status (c : RunStatus)
    (hct : c = RunStatus.processing ∨ c = RunStatus.queued) :
    ∀ (rs : List InvokeResponse) (s : TrackerState) (ctx : IntervalCtx),
      (∀ r ∈ rs, polledStatusOf r = c) →
      s.activeIntervals = [ctx] →
      s.lastStatus = some c →
      s.runStatus = c →
      s.pollAttempts + rs.length < MAX_POLL_ATTEMPTS →
      s.stuckCount + rs.length < MAX_STUCK_ATTEMPTS →
      (runEvents s (rs.map fun r => .pollTick ctx.id (.ok r) 0)).activeIntervals = [ctx] ∧
      (runEvents s (rs.map fun r => .pollTick ctx.id (.ok r) 0)).pollRef = s.pollRef ∧
      (runEvents s (rs.map fun r => .pollTick ctx.id (.ok r) 0)).pollAttempts
        = s.pollAttempts + rs.length ∧
      (runEvents s (rs.map fun r => .pollTick ctx.id (.ok r) 0)).stuckCount
        = s.stuckCount + rs.length ∧
      (runEvents s (rs.map fun r => .pollTick ctx.id (.ok r) 0)).lastStatus = some c ∧
      (runEvents s (rs.map fun r => .pollTick ctx.id (.ok r) 0)).runStatus = c ∧
      (runEvents s (rs.map fun r => .pollTick ctx.id (.ok r) 0)).isRunning = s.isRunning ∧
      (runEvents s (rs.map fun r => .pollTick ctx.id (.ok r) 0)).runTimeoutRef
        = s.runTimeoutRef ∧
      (runEvents s (rs.map fun r => .pollTick ctx.id (.ok r) 0)).activeTimeouts
        = s.activeTimeouts := by
  intro rs
  induction rs with
  | nil =>
    intro s ctx _ hI hlast hstat _ _
    exact ⟨hI, rfl, by simp [runEvents], by simp [runEvents], by simp [runEvents, hlast],
      by simp [runEvents, hstat], rfl, rfl, rfl⟩
  | cons r rest ih =>
    intro s ctx hall hI hlast hstat hA hS
    rw [List.length_cons] at hA hS
    have h1 := tick_ok_nonterminal s ctx r c 0 hI (by omega) (hall r (by simp)) hct
      (by rw [hlast, if_pos rfl]; omega)
    obtain ⟨g1, g2, g3, g4, g5, g6, g7, g8, g9, g10⟩ := h1
    rw [hlast, if_pos rfl] at g4
    have hrun : runEvents s ((r :: rest).map fun x => Event.pollTick ctx.id (Except.ok x) 0)
        = runEvents (step s (.pollTick ctx.id (.ok r) 0))
            (rest.map fun x => Event.pollTick ctx.id (Except.ok x) 0) := rfl
    have ih' := ih (step s (.pollTick ctx.id (.ok r) 0)) ctx
      (fun x hx => hall x (by simp [hx])) g1 g5 g6 (by rw [g3]; omega) (by rw [g4]; omega)
    obtain ⟨k1, k2, k3, k4, k5, k6, k7, k8, k9⟩ := ih'
    rw [hrun]
    refine ⟨k1, by rw [k2, g2], by rw [k3, g3, List.length_cons]; omega,
      by rw [k4, g4, List.length_cons]; omega, k5, k6,
      by rw [k7, g7], by rw [k8, g8], by rw [k9, g9]⟩

/-- The tick on which the stuck counter reaches the bound while the status
is still non-terminal: the run is terminated as `fail` with the stuck
message and the whole session (interval, refs, run timeout) is torn down. -/
lemma tick_ok_stuck_fires (s : TrackerState) (ctx : IntervalCtx) (tc : TimeoutCtx)
    (r : InvokeResponse) (c : RunStatus) (tnow : Int)
    (hI : s.activeIntervals = [ctx])
    (hP : s.pollRef = some ctx.id)
    (hA : s.pollAttempts + 1 < MAX_POLL_ATTEMPTS)
    (hc : polledStatusOf r = c)
    (hct : c = RunStatus.processing ∨ c = RunStatus.queued)
    (hlast : s.lastStatus = some c)
    (hstuck : s.stuckCount + 1 ≥ MAX_STUCK_ATTEMPTS)
    (hT : s.runTimeoutRef = some tc.id)
    (hTA : s.activeTimeouts = [tc]) :
    (step s (.pollTick ctx.id (.ok r) tnow)).runStatus = RunStatus.fail ∧
    (step s (.pollTick ctx.id (.ok r) tnow)).runMessage
      = some "상태 변화 없이 대기 시간 초과" ∧
    (step s (.pollTick ctx.id (.ok r) tnow)).pollRef = none ∧
    (step s (.pollTick ctx.id (.ok r) tnow)).activeIntervals = [] ∧
    (step s (.pollTick ctx.id (.ok r) tnow)).runTimeoutRef = none ∧
    (step s (.pollTick ctx.id (.ok r) tnow)).activeTimeouts = [] ∧
    (step s (.pollTick ctx.id (.ok r) tnow)).isRunning = false := by
  have hfind := find_interval_singleton ctx s hI
  have hcap : ¬ (s.pollAttempts + 1 ≥ MAX_POLL_ATTEMPTS) := by omega
  have hnt : c = RunStatus.processing ∨ c = RunStatus.queued := hct
  by_cases hd : r.duration_ms.isSome <;> by_cases hrr : truthyJson r.result = true <;>
    by_cases hl : truthyStr r.logged_at = true <;>
    refine ⟨?_, ?_, ?_, ?_, ?_, ?_, ?_⟩ <;>
    simp [step, hfind, pollTickBody, clearPoll_eq, hd, hrr, hl, hc, hlast, hstuck, hnt,
      hcap, hI, hP, hT, hTA, clearIntervalId, clearTimeoutId]

/-- Claim C3: starting from a freshly opened poll session, a run whose
classified poll status stays equal across consecutive non-terminal polls is
not terminated on any of the first 30 polls (the session stays registered
and running, with the stuck counter at k-1 after the k-th poll), and is
terminated as `fail` with the stuck message exactly on the 31st poll — the
one on which the consecutive-repeat counter reaches `MAX_STUCK_ATTEMPTS`
(30) — with the whole session (interval, refs, run timeout) torn down. -/
theorem stuck_detection_exact_bound
    (s0 : TrackerState) (ctx : IntervalCtx) (tc : TimeoutCtx) (c : RunStatus)
    (rs : List InvokeResponse)
    (hI : s0.activeIntervals = [ctx]) (hP : s0.pollRef = some ctx.id)
    (hA0 : s0.pollAttempts = 0) (hS0 : s0.stuckCount = 0)
    (hL0 : s0.lastStatus = none) (hR0 : s0.isRunning = true)
    (hT : s0.runTimeoutRef = some tc.id) (hTA : s0.activeTimeouts = [tc])
    (hct : c = RunStatus.processing ∨ c = RunStatus.queued)
    (hall : ∀ r ∈ rs, polledStatusOf r = c)
    (hlen : rs.length = 31) :
    (∀ k, k ≤ 30 →
      (runEvents s0 ((rs.take k).map fun r => Event.pollTick ctx.id (Except.ok r) 0)).pollRef
          = some ctx.id ∧
      (runEvents s0 ((rs.take k).map fun r =>
          Event.pollTick ctx.id (Except.ok r) 0)).activeIntervals = [ctx] ∧
      (runEvents s0 ((rs.take k).map fun r =>
          Event.pollTick ctx.id (Except.ok r) 0)).isRunning = true ∧
      (runEvents s0 ((rs.take k).map fun r =>
          Event.pollTick ctx.id (Except.ok r) 0)).stuckCount = k - 1 ∧
      (1 ≤ k → (runEvents s0 ((rs.take k).map fun r =>
          Event.pollTick ctx.id (Except.ok r) 0)).runStatus = c)) ∧
    ((runEvents s0 (rs.map fun r => Event.pollTick ctx.id (Except.ok r) 0)).runStatus
        = RunStatus.fail ∧
     (runEvents s0 (rs.map fun r => Event.pollTick ctx.id (Except.ok r) 0)).runMessage
        = some "상태 변화 없이 대기 시간 초과" ∧
     (runEvents s0 (rs.map fun r => Event.pollTick ctx.id (Except.ok r) 0)).pollRef = none ∧
     (runEvents s0 (rs.map fun r =>
        Event.pollTick ctx.id (Except.ok r) 0)).activeIntervals = [] ∧
     (runEvents s0 (rs.map fun r =>
        Event.pollTick ctx.id (Except.ok r) 0)).runTimeoutRef = none ∧
     (runEvents s0 (rs.map fun r =>
        Event.pollTick ctx.id (Except.ok r) 0)).activeTimeouts = [] ∧
     (runEvents s0 (rs.map fun r =>
        Event.pollTick ctx.id (Except.ok r) 0)).isRunning = false) := by
  obtain ⟨r0, rest, rfl⟩ : ∃ r0 rest, rs = r0 :: rest := by
    cases rs with
    | nil => simp at hlen
    | cons a l => exact ⟨a, l, rfl⟩
  have hrest : rest.length = 30 := by simpa using hlen
  have h1 := tick_ok_nonterminal s0 ctx r0 c 0 hI (by rw [hA0]; decide)
    (hall r0 (by simp)) hct (by rw [hL0]; simp [MAX_STUCK_ATTEMPTS])
  obtain ⟨g1, g2, g3, g4, g5, g6, g7, g8, g9, g10⟩ := h1
  have g4' : (step s0 (.pollTick ctx.id (.ok r0) 0)).stuckCount = 0 := by
    rw [g4, hL0]; simp
  constructor
  · intro k hk
    cases k with
    | zero =>
      refine ⟨by simpa [runEvents] using hP, by simpa [runEvents] using hI,
        by simpa [runEvents] using hR0, by simpa [runEvents] using hS0, by omega⟩
    | succ j =>
      have hj : j ≤ 29 := by omega
      have htake : (r0 :: rest).take (j + 1) = r0 :: rest.take j := rfl
      have hlen' : (rest.take j).length = j := by
        rw [List.length_take]; omega
      have hmem : ∀ x ∈ rest.take j, polledStatusOf x = c := by
        intro x hx
        exact hall x (by simp [List.mem_of_mem_take hx])
      have ih := ticks_same_status c hct (rest.take j)
        (step s0 (.pollTick ctx.id (.ok r0) 0)) ctx hmem g1 g5 g6
        (by rw [g3, hA0, hlen']; simp [MAX_POLL_ATTEMPTS]; omega)
        (by rw [g4', hlen']; simp [MAX_STUCK_ATTEMPTS]; omega)
      obtain ⟨k1, k2, k3, k4, k5, k6, k7, k8, k9⟩ := ih
      rw [htake]
      have hrw : runEvents s0 ((r0 :: rest.take j).map fun r =>
          Event.pollTick ctx.id (Except.ok r) 0)
          = runEvents (step s0 (.pollTick ctx.id (.ok r0) 0))
              ((rest.take j).map fun r => Event.pollTick ctx.id (Except.ok r) 0) := rfl
      rw [hrw]
      refine ⟨by rw [k2, g2, hP], k1, by rw [k7, g7, hR0], ?_, fun _ => k6⟩
      rw [k4, g4', hlen']
      omega
  · obtain ⟨rl, hrl⟩ : ∃ rl, rest.drop 29 = [rl] := by
      have : (rest.drop 29).length = 1 := by rw [List.length_drop]; omega
      exact List.length_eq_one.1 this
    have hsplit : rest = rest.take 29 ++ [rl] := by
      rw [← hrl]; exact (List.take_append_drop 29 rest).symm
    have hlen29 : (rest.take 29).length = 29 := by
      rw [List.length_take]; omega
    have hmem29 : ∀ x ∈ rest.take 29, polledStatusOf x = c := by
      intro x hx
      exact hall x (by simp [List.mem_of_mem_take hx])
    have ih := ticks_same_status c hct (rest.take 29)
      (step s0 (.pollTick ctx.id (.ok r0) 0)) ctx hmem29 g1 g5 g6
      (by rw [g3, hA0, hlen29]; simp [MAX_POLL_ATTEMPTS])
      (by rw [g4', hlen29]; simp [MAX_STUCK_ATTEMPTS])
    obtain ⟨k1, k2, k3, k4, k5, k6, k7, k8, k9⟩ := ih
    have hml : rl ∈ r0 :: rest := by
      have : rl ∈ rest.drop 29 := by rw [hrl]; simp
      exact List.mem_cons_of_mem r0 (List.drop_subset 29 rest this)
    have s30 := runEvents (step s0 (.pollTick ctx.id (.ok r0) 0))
      ((rest.take 29).map fun r => Event.pollTick ctx.id (Except.ok r) 0)
    have hfinal := tick_ok_stuck_fires
      (runEvents (step s0 (.pollTick ctx.id (.ok r0) 0))
        ((rest.take 29).map fun r => Event.pollTick ctx.id (Except.ok r) 0))
      ctx tc rl c 0 k1 (by rw [k2, g2, hP])
      (by rw [k3, g3, hA0, hlen29]; simp [MAX_POLL_ATTEMPTS])
      (hall rl hml) hct k5
      (by rw [k4, g4', hlen29]; simp [MAX_STUCK_ATTEMPTS])
      (by rw [k8, g8, hT]) (by rw [k9, g9, hTA])
    have hrw : runEvents s0 ((r0 :: rest).map fun r =>
        Event.pollTick ctx.id (Except.ok r) 0)
        = step (runEvents (step s0 (.pollTick ctx.id (.ok r0) 0))
            ((rest.take 29).map fun r => Event.pollTick ctx.id (Except.ok r) 0))
          (.pollTick ctx.id (.ok rl) 0) := by
      conv_lhs => rw [hsplit]
      rw [show ((r0 :: (rest.take 29 ++ [rl])).map fun r =>
          Event.pollTick ctx.id (Except.ok r) 0)
          = (Event.pollTick ctx.id (Except.ok r0) 0 ::
              ((rest.take 29).map fun r => Event.pollTick ctx.id (Except.ok r) 0)) ++
            [Event.pollTick ctx.id (Except.ok rl) 0] by simp]
      rw [show (Event.pollTick ctx.id (Except.ok r0) 0 ::
          ((rest.take 29).map fun r => Event.pollTick ctx.id (Except.ok r) 0)) ++
            [Event.pollTick ctx.id (Except.ok rl) 0]
          = Event.pollTick ctx.id (Except.ok r0) 0 ::
            (((rest.take 29).map fun r => Event.pollTick ctx.id (Except.ok r) 0) ++
              [Event.pollTick ctx.id (Except.ok rl) 0]) by simp]
      show runEvents (step s0 (.pollTick ctx.id (.ok r0) 0))
          ((((rest.take 29).map fun r => Event.pollTick ctx.id (Except.ok r) 0)) ++
            [Event.pollTick ctx.id (Except.ok rl) 0]) = _
      rw [runEvents_append]
      rfl
    rw [hrw]
    exact hfinal

/-- Witness for `stuck_detection_exact_bound`: 31 identical "processing"
polls after a fresh submit and accepted response. -/
theorem stuck_detection_exact_bound_witness :
    (runEvents (runEvents initialState
        [.submit (some 5) (some Json.null) 0, .invokeResolved 0 okSubmitRes])
      ((List.replicate 31 processingRes).map fun r =>
        Event.pollTick (IntervalCtx.mk 2 1000 5 7 0).id (Except.ok r) 0)).runStatus
      = RunStatus.fail ∧
    (runEvents (runEvents initialState
        [.submit (some 5) (some Json.null) 0, .invokeResolved 0 okSubmitRes])
      ((List.replicate 31 processingRes).map fun r =>
        Event.pollTick (IntervalCtx.mk 2 1000 5 7 0).id (Except.ok r) 0)).runMessage
      = some "상태 변화 없이 대기 시간 초과" ∧
    (runEvents (runEvents initialState
        [.submit (some 5) (some Json.null) 0, .invokeResolved 0 okSubmitRes])
      ((List.replicate 31 processingRes).map fun r =>
        Event.pollTick (IntervalCtx.mk 2 1000 5 7 0).id (Except.ok r) 0)).activeIntervals
      = [] := by
  have h := stuck_detection_exact_bound
    (runEvents initialState
      [.submit (some 5) (some Json.null) 0, .invokeResolved 0 okSubmitRes])
    (IntervalCtx.mk 2 1000 5 7 0) (TimeoutCtx.mk 1 60000)
    RunStatus.processing (List.replicate 31 processingRes)
    (by decide) (by decide) (by decide) (by decide) (by decide) (by decide)
    (by decide) (by decide) (Or.inl rfl) (by decide) (by decide)
  exact ⟨h.2.1, h.2.2.1, h.2.2.2.2.1⟩

@[simp] lemma clearPoll_pollRef (s : TrackerState) : (clearPoll s).pollRef = none := by
  rw [clearPoll_eq]

@[simp] lemma clearPoll_runTimeoutRef (s : TrackerState) :
    (clearPoll s).runTimeoutRef = none := by
  rw [clearPoll_eq]

@[simp] lemma clearPoll_pendingInvokes (s : TrackerState) :
    (clearPoll s).pendingInvokes = s.pendingInvokes := by
  rw [clearPoll_eq]

@[simp] lemma clearPoll_runLogs (s : TrackerState) : (clearPoll s).runLogs = s.runLogs := by
  rw [clearPoll_eq]

@[simp] lemma clearPoll_runStatus (s : TrackerState) :
    (clearPoll s).runStatus = s.runStatus := by
  rw [clearPoll_eq]

@[simp] lemma clearPoll_nextToken (s : TrackerState) :
    (clearPoll s).nextToken = s.nextToken := by
  rw [clearPoll_eq]

@[simp] lemma clearPoll_nextTimerId (s : TrackerState) :
    (clearPoll s).nextTimerId = s.nextTimerId := by
  rw [clearPoll_eq]

@[simp] lemma clearPoll_invokeCalls (s : TrackerState) :
    (clearPoll s).invokeCalls = s.invokeCalls := by
  rw [clearPoll_eq]

@[simp] lemma clearPoll_getStatusCalls (s : TrackerState) :
    (clearPoll s).getStatusCalls = s.getStatusCalls := by
  rw [clearPoll_eq]

set_option maxHeartbeats 1600000 in
/-- Every branch of the interval callback leaves the pending submit list
alone and either keeps the registered intervals and `pollRef` exactly as
they were or (on any teardown path, given the single-session shape) clears
both. -/
lemma pollTickBody_session_shape (ctx : IntervalCtx)
    (outcome : Except String InvokeResponse) (tnow : Int) (s : TrackerState)
    (h3 : ∀ c ∈ s.activeIntervals, s.pollRef = some c.id) :
    (pollTickBody ctx outcome tnow s).pendingInvokes = s.pendingInvokes ∧
    (((pollTickBody ctx outcome tnow s).activeIntervals = s.activeIntervals ∧
      (pollTickBody ctx outcome tnow s).pollRef = s.pollRef) ∨
     ((pollTickBody ctx outcome tnow s).activeIntervals = [] ∧
      (pollTickBody ctx outcome tnow s).pollRef = none)) := by
  have hclear : ∀ (x : TrackerState), x.activeIntervals = s.activeIntervals →
      x.pollRef = s.pollRef → (clearPoll x).activeIntervals = [] := by
    intro x hx1 hx2
    refine clearPoll_clears_intervals x ?_
    rw [hx1, hx2]
    exact h3
  by_cases hcap : s.pollAttempts + 1 ≥ MAX_POLL_ATTEMPTS
  · constructor
    · simp [pollTickBody, hcap]
    · right
      constructor
      · simp only [pollTickBody, if_pos hcap]
        exact hclear _ rfl rfl
      · simp [pollTickBody, hcap]
  · rcases outcome with msg | res
    · constructor
      · simp [pollTickBody, hcap]
      · right
        constructor
        · simp only [pollTickBody, if_neg hcap]
          exact hclear _ rfl rfl
        · simp [pollTickBody, hcap]
    · by_cases hd : res.duration_ms.isSome <;> by_cases hrr : truthyJson res.result = true <;>
        by_cases hl : truthyStr res.logged_at = true <;>
        by_cases hst : some (polledStatusOf res) = s.lastStatus <;>
        (constructor
         · simp [pollTickBody, hcap, hd, hrr, hl, hst]
           repeat' split
           all_goals simp
         · simp [pollTickBody, hcap, hd, hrr, hl, hst]
           repeat' split
           all_goals
             first
             | (left; constructor <;> (simp; done))
             | (right; constructor <;>
                 first
                 | (exact hclear _ (by simp) (by simp))
                 | (simp; done)))

/-- The single-session shape: at most one unsettled submit, at most one
registered polling interval, every registered interval is the one tracked by
`pollRef`, and a pending submit excludes a registered interval. -/
def SingleSessionInv (s : TrackerState) : Prop :=
  s.pendingInvokes.length ≤ 1 ∧
  s.activeIntervals.length ≤ 1 ∧
  (∀ c ∈ s.activeIntervals, s.pollRef = some c.id) ∧
  (s.pendingInvokes = [] ∨ s.activeIntervals = [])

/-- An event is gated when it is not a submit issued while a previous
submit's response is still pending (the non-overlapping-submit condition). -/
def gatedEvent (s : TrackerState) : Event → Bool
  | .submit _ _ _ => s.pendingInvokes.isEmpty
  | _ => true

/-- A trace is gated when every submit in it happens with no submit pending
at that point. -/
def gatedTrace (s : TrackerState) : List Event → Bool
  | [] => true
  | e :: es => gatedEvent s e && gatedTrace (step s e) es

/-- Observable effects of a precondition-passing submit: the existing
session is torn down before anything else and exactly one new pending
submit is enqueued. -/
lemma handleRun_success_fields (s : TrackerState) (fid : Int) (p : Json) (now : Int)
    (hfid : ¬ fid < 0)
    (h3 : ∀ c ∈ s.activeIntervals, s.pollRef = some c.id) :
    (step s (.submit (some fid) (some p) now)).activeIntervals = [] ∧
    (step s (.submit (some fid) (some p) now)).pollRef = none ∧
    (step s (.submit (some fid) (some p) now)).pendingInvokes
      = s.pendingInvokes ++ [PendingInvoke.mk s.nextToken fid now] ∧
    (step s (.submit (some fid) (some p) now)).nextToken = s.nextToken + 1 ∧
    (step s (.submit (some fid) (some p) now)).nextTimerId = s.nextTimerId + 1 := by
  have hclear := clearPoll_clears_intervals
    { s with jsonError := none, activeTab := Tab.output, runStatus := RunStatus.queued,
             runLogs := ["[Queued] Job accepted"], runResult := none, runDurationMs := none }
    (by simpa using h3)
  refine ⟨?_, ?_, ?_, ?_, ?_⟩ <;> simp [step, handleRun, hfid, hclear]

/-- The good branch of the submit continuation registers exactly one new
interval and tracks it in `pollRef`. -/
lemma invokeThen_good_fields (fid st : Int) (res : InvokeResponse) (s : TrackerState)
    (hfalsy : jsFalsyId res.invocation_id = false) :
    (invokeThen fid st res s).activeIntervals =
      s.activeIntervals ++
        [IntervalCtx.mk s.nextTimerId 1000 fid (res.invocation_id.getD 0) st] ∧
    (invokeThen fid st res s).pollRef = some s.nextTimerId ∧
    (invokeThen fid st res s).pendingInvokes = s.pendingInvokes := by
  by_cases hd : res.duration_ms.isSome <;> by_cases hrr : truthyJson res.result = true <;>
    refine ⟨?_, ?_, ?_⟩ <;> simp [invokeThen, hfalsy, hd, hrr]

/-- The missing-id branch of the submit continuation registers nothing. -/
lemma invokeThen_falsy_fields (fid st : Int) (res : InvokeResponse) (s : TrackerState)
    (hfalsy : jsFalsyId res.invocation_id = true) :
    (invokeThen fid st res s).activeIntervals = s.activeIntervals ∧
    (invokeThen fid st res s).pollRef = s.pollRef ∧
    (invokeThen fid st res s).pendingInvokes = s.pendingInvokes := by
  by_cases hd : res.duration_ms.isSome <;> by_cases hrr : truthyJson res.result = true <;>
    refine ⟨?_, ?_, ?_⟩ <;> simp [invokeThen, hfalsy, hd, hrr]

/-- Every gated event preserves the single-session shape. -/
lemma step_preserves_single_session (s : TrackerState) (e : Event)
    (h : SingleSessionInv s) (hg : gatedEvent s e = true) :
    SingleSessionInv (step s e) := by
  obtain ⟨h1, h2, h3, h4⟩ := h
  cases e with
  | submit sel parsed now =>
    have hpend : s.pendingInvokes = [] := by
      simpa [gatedEvent, List.isEmpty_iff] using hg
    cases sel with
    | none => exact ⟨h1, h2, h3, h4⟩
    | some fid =>
      by_cases hfid : fid < 0
      · have hs : step s (.submit (some fid) parsed now) =
            { s with runMessage := some "저장 후 실행할 수 있습니다." } := by
          simp [step, handleRun, hfid]
        rw [hs]
        exact ⟨h1, h2, h3, h4⟩
      · cases parsed with
        | none =>
          have hs : step s (.submit (some fid) none now) =
              { s with jsonError := some "유효한 JSON 형식이 아닙니다." } := by
            simp [step, handleRun, hfid]
          rw [hs]
          exact ⟨h1, h2, h3, h4⟩
        | some p =>
          obtain ⟨f1, f2, f3, f4, f5⟩ := handleRun_success_fields s fid p now hfid h3
          refine ⟨?_, ?_, ?_, ?_⟩
          · rw [f3, hpend]; simp
          · rw [f1]; simp
          · rw [f1]; simp
          · right; exact f1
  | invokeResolved token res =>
    cases hfind : s.pendingInvokes.find? (fun q => q.token == token) with
    | none =>
      have hs : step s (.invokeResolved token res) = s := by simp [step, hfind]
      rw [hs]
      exact ⟨h1, h2, h3, h4⟩
    | some q =>
      have hmem := List.mem_of_find?_eq_some hfind
      have hne : ¬ s.pendingInvokes = [] := by
        intro hnil; rw [hnil] at hmem; simp at hmem
      have hIempty : s.activeIntervals = [] := h4.resolve_left hne
      have hqtoken : (q.token == token) = true := by
        have h5 := List.find?_some hfind
        simpa using h5
      have hsingle : s.pendingInvokes = [q] := by
        cases hl : s.pendingInvokes with
        | nil => exact absurd hl hne
        | cons a l =>
          cases l with
          | nil =>
            rw [hl] at hmem
            simp at hmem
            rw [hmem]
          | cons b l2 => rw [hl] at h1; simp at h1
      have hfilter : s.pendingInvokes.filter (fun q => q.token != token) = [] := by
        rw [hsingle, List.filter_eq_nil_iff]
        intro a ha
        simp at ha
        subst ha
        simpa using hqtoken
      have hs : step s (.invokeResolved token res) =
          invokeThen q.functionId q.startedAt res
            { s with pendingInvokes :=
                s.pendingInvokes.filter (fun q => q.token != token) } := by
        simp [step, hfind]
      rw [hs]
      by_cases hfalsy : jsFalsyId res.invocation_id = true
      · obtain ⟨f1, f2, f3⟩ := invokeThen_falsy_fields q.functionId q.startedAt res _ hfalsy
        refine ⟨?_, ?_, ?_, ?_⟩
        · rw [f3]; simp [hfilter]
        · rw [f1]; simp [hIempty]
        · intro c hc
          rw [f1] at hc
          simp [hIempty] at hc
        · left; rw [f3]; simp [hfilter]
      · obtain ⟨f1, f2, f3⟩ := invokeThen_good_fields q.functionId q.startedAt res _
          (by simpa using hfalsy)
        refine ⟨?_, ?_, ?_, ?_⟩
        · rw [f3]; simp [hfilter]
        · rw [f1]; simp [hIempty]
        · intro c hc
          rw [f1] at hc
          simp [hIempty] at hc
          rw [f2, hc]
        · left; rw [f3]; simp [hfilter]
  | invokeRejected token msg =>
    cases hfind : s.pendingInvokes.find? (fun q => q.token == token) with
    | none =>
      have hs : step s (.invokeRejected token msg) = s := by simp [step, hfind]
      rw [hs]
      exact ⟨h1, h2, h3, h4⟩
    | some q =>
      have hs : step s (.invokeRejected token msg) =
          invokeCatch msg
            { s with pendingInvokes :=
                s.pendingInvokes.filter (fun q => q.token != token) } := by
        simp [step, hfind]
      rw [hs]
      have hclear := clearPoll_clears_intervals
        { s with pendingInvokes := s.pendingInvokes.filter (fun q => q.token != token) }
        (by simpa using h3)
      refine ⟨?_, ?_, ?_, ?_⟩
      · simp only [invokeCatch, clearPoll_pendingInvokes]
        calc (s.pendingInvokes.filter (fun q => q.token != token)).length
            ≤ s.pendingInvokes.length := List.length_filter_le _ _
          _ ≤ 1 := h1
      · simp only [invokeCatch]
        rw [hclear]
        simp
      · simp only [invokeCatch]
        intro c hc
        rw [hclear] at hc
        simp at hc
      · right
        simp only [invokeCatch]
        rw [hclear]
  | pollTick tid outcome now =>
    cases hfind : s.activeIntervals.find? (fun c => c.id == tid) with
    | none =>
      have hs : step s (.pollTick tid outcome now) = s := by simp [step, hfind]
      rw [hs]
      exact ⟨h1, h2, h3, h4⟩
    | some ctx =>
      have hs : step s (.pollTick tid outcome now) = pollTickBody ctx outcome now s := by
        simp [step, hfind]
      rw [hs]
      obtain ⟨hpend', hdisj⟩ := pollTickBody_session_shape ctx outcome now s h3
      rcases hdisj with ⟨hi, hp⟩ | ⟨hi, hp⟩
      · refine ⟨by rw [hpend']; exact h1, by rw [hi]; exact h2, ?_, ?_⟩
        · intro c hc
          rw [hi] at hc
          rw [hp]
          exact h3 c hc
        · rcases h4 with h4 | h4
          · left; rw [hpend']; exact h4
          · right; rw [hi]; exact h4
      · refine ⟨by rw [hpend']; exact h1, by rw [hi]; simp, ?_, Or.inr hi⟩
        intro c hc
        rw [hi] at hc
        simp at hc
  | runTimeout tid =>
    by_cases hany : (s.activeTimeouts.any (fun c => c.id == tid)) = true
    · have hs : step s (.runTimeout tid) =
          runTimeoutFire { s with activeTimeouts := clearTimeoutId tid s.activeTimeouts } := by
        simp [step, hany]
      rw [hs]
      have hclear := clearPoll_clears_intervals
        { s with activeTimeouts := clearTimeoutId tid s.activeTimeouts }
        (by simpa using h3)
      refine ⟨?_, ?_, ?_, ?_⟩
      · simp only [runTimeoutFire, clearPoll_pendingInvokes]
        exact h1
      · simp only [runTimeoutFire]
        rw [hclear]
        simp
      · simp only [runTimeoutFire]
        intro c hc
        rw [hclear] at hc
        simp at hc
      · right
        simp only [runTimeoutFire]
        rw [hclear]
    · have hs : step s (.runTimeout tid) = s := by simp [step, hany]
      rw [hs]
      exact ⟨h1, h2, h3, h4⟩

/-- Gated traces preserve the single-session shape. -/
lemma runEvents_preserves_single_session :
    ∀ (es : List Event) (s : TrackerState), SingleSessionInv s →
      gatedTrace s es = true → SingleSessionInv (runEvents s es) := by
  intro es
  induction es with
  | nil =>
    intro s h _
    simpa [runEvents] using h
  | cons e es ih =>
    intro s h hg
    rw [show gatedTrace s (e :: es) = (gatedEvent s e && gatedTrace (step s e) es) from rfl,
      Bool.and_eq_true] at hg
    exact ih (step s e) (step_preserves_single_session s e h hg.1) hg.2

/-- Claim C1 (counterexample): two submits in quick succession, each of whose
invoke responses resolves only after the second submit, leave TWO registered
polling intervals — the second submit's `clearPoll` runs before the first
response has registered its interval, and the first response's interval is
then orphaned when the second response overwrites `pollRef`.  So "exactly
one active polling timer after two submits" fails for this event order. -/
theorem double_submit_orphan_interval_cex :
    (runEvents initialState
      [.submit (some 5) (some Json.null) 0, .submit (some 5) (some Json.null) 0,
       .invokeResolved 0 okSubmitRes, .invokeResolved 1 okSubmitRes]).activeIntervals.length
      = 2 ∧
    (runEvents initialState
      [.submit (some 5) (some Json.null) 0, .submit (some 5) (some Json.null) 0,
       .invokeResolved 0 okSubmitRes, .invokeResolved 1 okSubmitRes]).activeIntervals.length
      ≠ 1 ∧
    (runEvents initialState
      [.submit (some 5) (some Json.null) 0, .submit (some 5) (some Json.null) 0,
       .invokeResolved 0 okSubmitRes, .invokeResolved 1 okSubmitRes]).pollRef = some 4 := by
  refine ⟨rfl, by decide, rfl⟩

/-- Claim C1 (amended): every precondition-passing submit first tears down
any existing poll session (no interval registered and `pollRef` cleared
right after the synchronous submit body); and provided no submit is issued
while a previous submit's response is pending, at most one polling interval
is registered at any time along the whole trace, and after a second
(non-overlapping) submit whose response carries a valid invocation id
exactly one polling interval is active.  (Overlapping submits genuinely
break the invariant, see the counterexample.) -/
theorem single_session_when_not_overlapping :
    (∀ (s : TrackerState) (fid : Int) (p : Json) (now : Int), ¬ fid < 0 →
      (∀ c ∈ s.activeIntervals, s.pollRef = some c.id) →
      (step s (.submit (some fid) (some p) now)).activeIntervals = [] ∧
      (step s (.submit (some fid) (some p) now)).pollRef = none) ∧
    (∀ (es : List Event) (s : TrackerState), SingleSessionInv s →
      gatedTrace s es = true → (runEvents s es).activeIntervals.length ≤ 1) ∧
    (∀ (s : TrackerState) (fid : Int) (p : Json) (now : Int) (res : InvokeResponse),
      SingleSessionInv s → s.pendingInvokes = [] → ¬ fid < 0 →
      jsFalsyId res.invocation_id = false →
      (runEvents s [.submit (some fid) (some p) now,
        .invokeResolved s.nextToken res]).activeIntervals.length = 1) := by
  refine ⟨?_, ?_, ?_⟩
  · intro s fid p now hfid h3
    obtain ⟨f1, f2, f3, f4, f5⟩ := handleRun_success_fields s fid p now hfid h3
    exact ⟨f1, f2⟩
  · intro es s h hg
    exact (runEvents_preserves_single_session es s h hg).2.1
  · intro s fid p now res hInv hpend hfid hfalsy
    obtain ⟨f1, f2, f3, f4, f5⟩ := handleRun_success_fields s fid p now hfid hInv.2.2.1
    have hfind : (step s (.submit (some fid) (some p) now)).pendingInvokes.find?
        (fun q => q.token == s.nextToken) = some (PendingInvoke.mk s.nextToken fid now) := by
      rw [f3, hpend]
      simp [List.find?]
    have hs : runEvents s [.submit (some fid) (some p) now, .invokeResolved s.nextToken res]
        = invokeThen fid now res
            { (step s (.submit (some fid) (some p) now)) with
              pendingInvokes := (step s (.submit (some fid) (some p) now)).pendingInvokes.filter
                (fun q => q.token != s.nextToken) } := by
      show step (step s (.submit (some fid) (some p) now)) (.invokeResolved s.nextToken res) = _
      rw [show step (step s (.submit (some fid) (some p) now))
            (.invokeResolved s.nextToken res)
          = (match (step s (.submit (some fid) (some p) now)).pendingInvokes.find?
                (fun q => q.token == s.nextToken) with
             | some q => invokeThen q.functionId q.startedAt res
                 { (step s (.submit (some fid) (some p) now)) with
                   pendingInvokes := (step s (.submit (some fid)
                     (some p) now)).pendingInvokes.filter
                       (fun q => q.token != s.nextToken) }
             | none => step s (.submit (some fid) (some p) now)) from rfl, hfind]
    rw [hs]
    obtain ⟨g1, g2, g3⟩ := invokeThen_good_fields fid now res _ hfalsy
    rw [g1]
    simp [f1]

/-- Witness for `single_session_when_not_overlapping`: two sequential
submits from the initial state, each response handled before the next
submit, end with exactly one registered interval. -/
theorem single_session_when_not_overlapping_witness :
    (runEvents
      (runEvents initialState
        [.submit (some 5) (some Json.null) 0, .invokeResolved 0 okSubmitRes])
      [.submit (some 5) (some Json.null) 0,
       .invokeResolved (runEvents initialState
        [.submit (some 5) (some Json.null) 0, .invokeResolved 0 okSubmitRes]).nextToken
        okSubmitRes]).activeIntervals.length = 1 :=
  single_session_when_not_overlapping.2.2
    (runEvents initialState
      [.submit (some 5) (some Json.null) 0, .invokeResolved 0 okSubmitRes])
    5 Json.null 0 okSubmitRes
    ⟨by decide, by decide, by decide, by decide⟩ (by decide) (by decide) (by decide)

end SoftGate
